import Mathlib

/-!
Shallow embedding of the EzExtender decision engine (app/rules.py, app/rag.py,
app/precedent.py, app/main.py) and proofs about the claims of its
specification.  Python strings are modelled as Lean `String`/`List Char`,
Python floats as `ℚ`, Python dicts with statically known keys as structures,
and JSON dicts with dynamic keys as association lists.
-/

namespace EzExtender

/-! ### Python string primitives -/

/-- Python `str.lower()` restricted to its ASCII action (every string that the
claims touch is ASCII). -/
def pyLower (s : List Char) : List Char := s.map Char.toLower

/-- Python `str.upper()` restricted to its ASCII action. -/
def pyUpper (s : List Char) : List Char := s.map Char.toUpper

/-- Python `str.strip()`: drop whitespace from both ends. -/
def pyStrip (s : List Char) : List Char :=
  ((s.dropWhile Char.isWhitespace).reverse.dropWhile Char.isWhitespace).reverse

/-- Python `sub in s` for strings: `sub` occurs contiguously in `s`. -/
def strContains (s sub : List Char) : Bool :=
  match s with
  | [] => sub.isEmpty
  | _ :: t => sub.isPrefixOf s || strContains t sub

/-- Python `any(w in s for w in ws)`. -/
def containsAny (s : List Char) (ws : List String) : Bool :=
  ws.any (fun w => strContains s w.data)

/-- Fuel-driven scan behind `replaceAll`: replace every non-overlapping
occurrence of a nonempty `pat`, scanning left to right.  Each step consumes
at least one input character, so fuel equal to the input length makes the
fuel-exhausted branch unreachable; the fuel only makes the recursion
structural. -/
def replaceAllFuel (pat rep : List Char) : ℕ → List Char → List Char
  | 0, s => s
  | _ + 1, [] => []
  | fuel + 1, c :: t =>
    if pat ≠ [] ∧ pat.isPrefixOf (c :: t) then
      rep ++ replaceAllFuel pat rep fuel ((c :: t).drop pat.length)
    else
      c :: replaceAllFuel pat rep fuel t

/-- Python `str.replace(pat, rep)` for a nonempty pattern. -/
def replaceAll (pat rep s : List Char) : List Char := replaceAllFuel pat rep s.length s

/-- `String` wrapper for `replaceAll`. -/
def pyReplace (s pat rep : String) : String := ⟨replaceAll pat.data rep.data s.data⟩

/-- Decidable equality for `Except`, used to evaluate parser results. -/
instance {ε α : Type} [DecidableEq ε] [DecidableEq α] : DecidableEq (Except ε α) :=
  fun a b =>
    match a, b with
    | .ok x, .ok y => decidable_of_iff (x = y) (by simp)
    | .error x, .error y => decidable_of_iff (x = y) (by simp)
    | .ok _, .error _ => isFalse (by simp)
    | .error _, .ok _ => isFalse (by simp)

/-! ### Tagging (app/rag.py lines 43-53) -/

/-- `tag_reason` from app/rag.py: classify a raw reason string, first match
wins, priority bereavement → serious_injury → minor_illness → travel →
other. -/
def tag_reason (raw : String) : String :=
  let s := pyLower raw.data
  if containsAny s ["bereavement", "passed away", "funeral", "death"] then "bereavement"
  else if containsAny s ["hospital", "hospitalized", "surgery", "broken wrist", "injury"] then
    "serious_injury"
  else if containsAny s ["flu", "cold", "common cold"] then "minor_illness"
  else if containsAny s ["vacation", "travel", "trip", "holiday"] then "travel"
  else "other"

/-! ### Tag inference of the Precedent Recorder (app/precedent.py lines 36-46) -/

/-- `_infer_tag` from app/precedent.py.  Note the branch order: it tests the
minor-illness keywords before the serious-injury keywords, unlike
`tag_reason`.  (The Python `(reason_text or "")` None-guard is dropped:
`String` is total.) -/
def inferTag (reason_text : String) : String :=
  let s := pyLower reason_text.data
  if containsAny s ["bereavement", "passed away", "funeral", "death"] then "bereavement"
  else if containsAny s ["flu", "cold", "common cold"] then "minor_illness"
  else if containsAny s ["hospital", "injury", "broken wrist", "surgery"] then "serious_injury"
  else if containsAny s ["vacation", "travel", "trip", "holiday"] then "travel"
  else "other"

/-! ### Text normalizer (app/rag.py lines 74-82) -/

/-- `normalize_reason` from app/rag.py: lower-case, then four literal
replacements applied in order. -/
def normalize_reason (t : String) : String :=
  let s : String := ⟨pyLower t.data⟩
  pyReplace (pyReplace (pyReplace (pyReplace s "passed away" "death bereavement")
    "funeral" "death bereavement") "grandfather" "family member")
    "flu" "common cold minor illness"

/-! ### Time rule (app/rules.py) -/

/-- A UTC wall-clock instant at whole-second resolution, as carried by the
`datetime` values that `_parse_iso_z` produces. -/
structure DateTime where
  year : ℕ
  month : ℕ
  day : ℕ
  hour : ℕ
  minute : ℕ
  second : ℕ
deriving DecidableEq, Repr

/-- Gregorian leap-year rule, as used by Python `datetime`. -/
def isLeapYear (y : ℕ) : Bool := y % 4 == 0 && (y % 100 != 0 || y % 400 == 0)

/-- Length of a month in the proleptic Gregorian calendar. -/
def daysInMonth (y m : ℕ) : ℕ :=
  if m = 2 then (if isLeapYear y then 29 else 28)
  else if m = 4 ∨ m = 6 ∨ m = 9 ∨ m = 11 then 30
  else 31

/-- The range validation `datetime.fromisoformat` performs on the six numeric
fields (rules.py line 24): year in MINYEAR..MAXYEAR, month 1..12, day within
the month, hour below 24, minute and second below 60. -/
def validCalendar (dt : DateTime) : Bool :=
  1 ≤ dt.year && dt.year ≤ 9999 && 1 ≤ dt.month && dt.month ≤ 12 &&
  1 ≤ dt.day && dt.day ≤ daysInMonth dt.year dt.month &&
  dt.hour ≤ 23 && dt.minute ≤ 59 && dt.second ≤ 59

/-- Numeric value of an ASCII digit character. -/
def digitVal (c : Char) : ℕ := c.toNat - 48

/-- Two-digit decimal read. -/
def num2 (a b : Char) : ℕ := 10 * digitVal a + digitVal b

/-- Four-digit decimal read. -/
def num4 (a b c d : Char) : ℕ :=
  1000 * digitVal a + 100 * digitVal b + 10 * digitVal c + digitVal d

/-- The `s[:-6] + "Z"` rewrite of a `+00:00` suffix (rules.py lines 20-21). -/
def normPlusSuffix (s : List Char) : List Char :=
  if "+00:00".data.isSuffixOf s then s.take (s.length - 6) ++ ['Z'] else s

/-- `_parse_iso_z` from app/rules.py lines 12-24.  The two `.error` branches
model the two `ValueError` sites: the explicit raise after the
`ISO_Z_RE` regex test, and the range validation inside
`datetime.fromisoformat` (Python's interpolated messages are elided).
`\d` is modelled as the ASCII digits, and `.strip()`/`.upper()` as their
ASCII action. -/
def parse_iso_z (s : String) : Except String DateTime :=
  if s.data = [] then
    .error "Empty deadline string. Expected YYYY-MM-DDTHH:MM:SSZ."
  else
    match normPlusSuffix (pyUpper (pyStrip s.data)) with
    | [a, b, c, d, k1, e, f, k2, g, h, k3, i, j, k4, l, m, k5, n, o, k6] =>
      if a.isDigit && b.isDigit && c.isDigit && d.isDigit && k1 == '-' &&
         e.isDigit && f.isDigit && k2 == '-' && g.isDigit && h.isDigit &&
         k3 == 'T' && i.isDigit && j.isDigit && k4 == ':' && l.isDigit &&
         m.isDigit && k5 == ':' && n.isDigit && o.isDigit && k6 == 'Z' then
        let dt : DateTime :=
          ⟨num4 a b c d, num2 e f, num2 g h, num2 i j, num2 l m, num2 n o⟩
        if validCalendar dt then .ok dt
        else .error "Invalid date or time component in deadline."
      else .error "Bad ISO timestamp. Expected YYYY-MM-DDTHH:MM:SSZ."
    | _ => .error "Bad ISO timestamp. Expected YYYY-MM-DDTHH:MM:SSZ."

/-- Days from 1970-01-01 to year/month/day in the proleptic Gregorian
calendar (civil-days algorithm, valid for year at least 1, which
`validCalendar` guarantees). -/
def daysFromCivil (y m d : ℕ) : ℤ :=
  let yAdj := if m ≤ 2 then y - 1 else y
  let era := yAdj / 400
  let yoe := yAdj % 400
  let mp := (m + 9) % 12
  let doy := (153 * mp + 2) / 5 + (d - 1)
  let doe := yoe * 365 + yoe / 4 - yoe / 100 + doy
  (era : ℤ) * 146097 + (doe : ℤ) - 719468

/-- Seconds from the epoch of a UTC instant; the difference of two values is
the `(dl - now).total_seconds()` of rules.py line 35. -/
def dtEpoch (dt : DateTime) : ℤ :=
  daysFromCivil dt.year dt.month dt.day * 86400 +
    dt.hour * 3600 + dt.minute * 60 + dt.second

/-- `hours_to_deadline` from app/rules.py lines 31-35, with the already-parsed
deadline and the `now_utc()` instant passed explicitly. -/
def hours_to_deadline (deadline now : DateTime) : ℚ :=
  ((dtEpoch deadline - dtEpoch now : ℤ) : ℚ) / 3600

/-- `auto_approve_beyond_48h` from app/rules.py lines 37-39. -/
def auto_approve_beyond_48h (deadline now : DateTime) : Bool × ℚ :=
  let h := hours_to_deadline deadline now
  (decide (48 < h), h)

/-- ASCII digit character of a value below ten. -/
def digitChar (n : ℕ) : Char := Char.ofNat (48 + n)

/-- Two-digit zero-padded decimal print. -/
def pad2 (n : ℕ) : List Char := [digitChar (n / 10 % 10), digitChar (n % 10)]

/-- Four-digit zero-padded decimal print. -/
def pad4 (n : ℕ) : List Char :=
  [digitChar (n / 1000 % 10), digitChar (n / 100 % 10),
   digitChar (n / 10 % 10), digitChar (n % 10)]

/-- The 19 characters `YYYY-MM-DDTHH:MM:SS` of a printed datetime. -/
def isoCore (dt : DateTime) : List Char :=
  pad4 dt.year ++ '-' :: pad2 dt.month ++ '-' :: pad2 dt.day ++
    'T' :: pad2 dt.hour ++ ':' :: pad2 dt.minute ++ ':' :: pad2 dt.second

/-- The characters of `dt.isoformat().replace("+00:00", "Z")` for a
whole-second UTC datetime (rules.py lines 46-47). -/
def isoZChars (dt : DateTime) : List Char := isoCore dt ++ ['Z']

/-- String form of `isoZChars`. -/
def isoZ (dt : DateTime) : String := ⟨isoZChars dt⟩

/-- Python `round(q, 1)`; ties are modelled half-up where Python's float
rounding is half-even, a difference no claim touches. -/
def round1 (q : ℚ) : ℚ := (⌊10 * q + 1 / 2⌋ : ℚ) / 10

/-- Python `round(q, 3)` under the same tie-breaking caveat as `round1`. -/
def round3 (q : ℚ) : ℚ := (⌊1000 * q + 1 / 2⌋ : ℚ) / 1000

/-- Digits of a tenths count as a one-decimal string. -/
def fmtTenths (m : ℕ) : String := toString (m / 10) ++ "." ++ toString (m % 10)

/-- Python `f"{q:.1f}"` under the same tie-breaking caveat as `round1`. -/
def fmt1 (q : ℚ) : String :=
  let n := ⌊10 * q + 1 / 2⌋
  if n < 0 then "-" ++ fmtTenths n.natAbs else fmtTenths n.toNat

/-- The `deadline_meta` dict of app/rules.py lines 41-51. -/
structure DeadlineMeta where
  now_utc : String
  deadline_utc : String
  hours_to_deadline : ℚ
  within_48h : Bool
  beyond_48h : Bool
deriving DecidableEq, Repr

/-- `deadline_meta` from app/rules.py lines 41-51, on the parsed deadline and
the explicit `now`. -/
def deadline_meta_of (deadline now : DateTime) : DeadlineMeta :=
  let h := hours_to_deadline deadline now
  { now_utc := isoZ now
    deadline_utc := isoZ deadline
    hours_to_deadline := round1 h
    within_48h := decide (0 ≤ h) && decide (h ≤ 48)
    beyond_48h := decide (48 < h) }

/-! ### Evidence retrieval (app/rag.py) -/

/-- `PRECEDENT_WEIGHT` from app/rag.py line 13. -/
def PRECEDENT_WEIGHT : ℚ := 35 / 100

/-- `MIN_CONF` from app/rag.py line 12. -/
def MIN_CONF : ℚ := 60 / 100

/-- The metadata dict stored with a policy chunk, restricted to the keys the
engine reads: `label` and `source`.  `none` models both an absent key and a
stored `None`. -/
structure Meta where
  label : Option String := none
  source : Option String := none
deriving DecidableEq, Repr

/-- An `EvidenceHit` as built by `_to_policy_hits` (rag.py lines 98-103). -/
structure Hit where
  document : String
  meta : Meta
  similarity : ℚ
  source : String
deriving DecidableEq, Repr

/-- The parallel `documents` / `metadatas` / `distances` lists a Chroma
`col.query` call returns (rag.py lines 86-93).  The inner `Option`s model the
`None` entries which `doc or ""` and `meta or {}` guard against. -/
structure QueryRes where
  docs : List (Option String)
  metas : List (Option Meta)
  dists : List ℚ
deriving Repr

/-- Python `zip` over three lists: truncate to the shortest. -/
def zip3 {α β γ : Type} : List α → List β → List γ → List (α × β × γ)
  | a :: as, b :: bs, c :: cs => (a, b, c) :: zip3 as bs cs
  | _, _, _ => []

/-- The clamp `max(0.0, min(1.0, 1.0 - dist))` of rag.py line 97. -/
def simOfDist (dist : ℚ) : ℚ := max 0 (min 1 (1 - dist))

/-- Python `(x or "").lower()` on an optional string. -/
def lowerOpt (o : Option String) : String := ⟨pyLower (o.getD "").data⟩

/-- One raw query row turned into a `Hit` (rag.py lines 96-103). -/
def mkHit (doc : Option String) (meta : Option Meta) (dist : ℚ) : Hit :=
  let m := meta.getD {}
  { document := doc.getD ""
    meta := m
    similarity := simOfDist dist
    source := m.source.getD "policy" }

/-- Insert a hit into a descending-similarity list, after every element with
similarity at least as large — the stable position Python's
`sort(key=sim, reverse=True)` gives it. -/
def insertHit (h : Hit) : List Hit → List Hit
  | [] => [h]
  | x :: xs => if x.similarity < h.similarity then h :: x :: xs else x :: insertHit h xs

/-- Stable sort by descending similarity (rag.py line 104). -/
def sortHits : List Hit → List Hit
  | [] => []
  | h :: t => insertHit h (sortHits t)

/-- `_to_policy_hits` from app/rag.py lines 85-105, with the backend response
to `col.query(query_texts=[q], n_results=k, ...)` passed in as data.  `k`
itself only bounds the backend response, so it does not appear here. -/
def toPolicyHits (res : QueryRes) : List Hit :=
  sortHits ((zip3 res.docs res.metas res.dists).map (fun r => mkHit r.1 r.2.1 r.2.2))

/-- The override verdict `_strong_cue_decision` may produce
(rag.py lines 127-129). -/
structure StrongRec where
  recommend : String
  confidence : ℚ
deriving DecidableEq, Repr

/-- `deny_cues` from app/rag.py line 110. -/
def deny_cues : List String :=
  ["not sufficient", "not valid", "deny", "insufficient", "not acceptable"]

/-- `allow_cues` from app/rag.py line 111. -/
def allow_cues : List String :=
  ["bereavement", "death", "immediate family", "hospital", "serious injury", "broken wrist"]

/-- The `strong_deny` flag after the loop of rag.py lines 116-124: some hit
has stored label `deny`, similarity at least `min_sim`, and a deny cue in its
lower-cased text. -/
def strongDenyFlag (hits : List Hit) (min_sim : ℚ) : Bool :=
  hits.any (fun h =>
    lowerOpt h.meta.label == "deny" && decide (min_sim ≤ h.similarity) &&
      containsAny (pyLower h.document.data) deny_cues)

/-- The `strong_allow` flag after the loop of rag.py lines 116-124. -/
def strongAllowFlag (hits : List Hit) (min_sim : ℚ) : Bool :=
  hits.any (fun h =>
    lowerOpt h.meta.label == "allow" && decide (min_sim ≤ h.similarity) &&
      containsAny (pyLower h.document.data) allow_cues)

/-- `_strong_cue_decision` from app/rag.py lines 108-130 (`min_sim` defaults
to `0.58` at the call site). -/
def strong_cue_decision (hits : List Hit) (min_sim : ℚ := 58 / 100) : Option StrongRec :=
  let strong_deny := strongDenyFlag hits min_sim
  let strong_allow := strongAllowFlag hits min_sim
  if strong_deny && !strong_allow then some ⟨"deny", max min_sim (65 / 100)⟩
  else if strong_allow && !strong_deny then some ⟨"approve", max min_sim (65 / 100)⟩
  else none

/-- A precedent hit as the stub contract describes it (rag.py line 154's
comment): document, an `outcome` metadata entry, and a similarity. -/
structure PrecHit where
  document : String
  outcome : Option String
  similarity : ℚ
deriving DecidableEq, Repr

/-- The precedent query bound at import time (rag.py lines 29-37).  The
module `app.precedent` defines no `query_precedent`, so the
`from app.precedent import query_precedent` raises `ImportError` and the
fallback stub of lines 34-36, which returns the empty list, is what
`policy_lookup` calls. -/
def precedent_query (_reason_text : String) (_k : ℕ) : List PrecHit := []

/-- `pol_allow` of rag.py line 157: similarity mass of policy hits whose
stored label lower-cases to `allow`. -/
def polAllowScore (hits : List Hit) : ℚ :=
  ((hits.filter (fun h => lowerOpt h.meta.label == "allow")).map
    (fun h => h.similarity)).sum

/-- `pol_deny` of rag.py line 158. -/
def polDenyScore (hits : List Hit) : ℚ :=
  ((hits.filter (fun h => lowerOpt h.meta.label == "deny")).map
    (fun h => h.similarity)).sum

/-- `pre_allow` of rag.py line 160. -/
def preAllowScore (phits : List PrecHit) : ℚ :=
  ((phits.filter (fun h => lowerOpt h.outcome == "allow")).map
    (fun h => h.similarity)).sum

/-- `pre_deny` of rag.py line 161. -/
def preDenyScore (phits : List PrecHit) : ℚ :=
  ((phits.filter (fun h => lowerOpt h.outcome == "deny")).map
    (fun h => h.similarity)).sum

/-- `allow_score` of rag.py line 163. -/
def allowScore (hits : List Hit) (phits : List PrecHit) : ℚ :=
  (1 - PRECEDENT_WEIGHT) * polAllowScore hits + PRECEDENT_WEIGHT * preAllowScore phits

/-- `deny_score` of rag.py line 164. -/
def denyScore (hits : List Hit) (phits : List PrecHit) : ℚ :=
  (1 - PRECEDENT_WEIGHT) * polDenyScore hits + PRECEDENT_WEIGHT * preDenyScore phits

/-! ### Counters (data/precedent.json) -/

/-- A per-tag row of the counter file, e.g. `{"allow": 5, "deny": 0}`,
as an association list. -/
abbrev Row := List (String × ℤ)

/-- The counter file content: tag to row. -/
abbrev Counters := List (String × Row)

/-- Python `dict.get`: first binding of the key, if any. -/
def getk {α : Type} : List (String × α) → String → Option α
  | [], _ => none
  | (k, v) :: t, key => if k = key then some v else getk t key

/-- Python `dict[key] = v` on an association list: overwrite the first
binding or append. -/
def setk {α : Type} : List (String × α) → String → α → List (String × α)
  | [], key, v => [(key, v)]
  | (k, w) :: t, key, v => if k = key then (key, v) :: t else (k, w) :: setk t key v

/-- Python `int(row.get(key, 0))` on a counter row. -/
def rowGet (row : Row) (key : String) : ℤ := (getk row key).getD 0

/-- `_load_precedent_stats` from app/rag.py lines 56-71, with the parsed file
content passed in; a missing or unreadable file is the empty list, and
`data.get(tag, {})` is the empty row for an unknown tag. -/
def load_precedent_stats (counters : Counters) (tag : String) : Row :=
  (getk counters tag).getD []

/-! ### The decision payload (app/rag.py lines 136-214) -/

/-- One formatted evidence entry (rag.py lines 179-184).  The `label` field
applies Python's `x or None`: an absent or empty stored label becomes
`none`. -/
structure EvidenceItem where
  source : String
  label : Option String
  similarity : ℚ
  snippet : String
deriving DecidableEq, Repr

/-- The `precedent` section of the payload (rag.py lines 203-212). -/
structure PrecedentInfo where
  tag : String
  stats : Row
  allow_rate : ℚ
  hint : String
deriving DecidableEq, Repr

/-- The payload `policy_lookup` returns (rag.py lines 192-213).  `recommend`
is `none` exactly when Python holds `None` there, and the `decision`/`via`
branches read Python's truthiness of `recommend`, which for the values
`"approve"`/`"deny"`/`None` is `Option.isSome`. -/
structure Payload where
  decision : String
  via : String
  recommend : Option String
  confidence : ℚ
  explanation : String
  evidence : List EvidenceItem
  precedent : PrecedentInfo
deriving DecidableEq, Repr

/-- The evidence entry built from the top policy hit (rag.py lines 179-184). -/
def mkEvidence (h : Hit) : EvidenceItem :=
  { source := h.source
    label := h.meta.label.bind (fun s => if s = "" then none else some s)
    similarity := round3 h.similarity
    snippet := ⟨h.document.data.take 300 ++
      (if 300 < h.document.data.length then "...".data else [])⟩ }

/-- `policy_lookup` from app/rag.py lines 136-214.  The two backend reads are
passed as data: `policyRes` is the Chroma response behind `_to_policy_hits`
(line 148, `k = 5` from the call site in main.py), and `counters` is the
parsed content of `data/precedent.json` behind `_load_precedent_stats`. -/
def policy_lookup (reason_text : String) (policyRes : QueryRes)
    (counters : Counters) : Payload :=
  let tag := tag_reason reason_text
  let q := normalize_reason reason_text
  let policy_hits := toPolicyHits policyRes
  let strong := strong_cue_decision policy_hits
  let precedent_hits := precedent_query q 5
  let allow_score := allowScore policy_hits precedent_hits
  let deny_score := denyScore policy_hits precedent_hits
  let total := allow_score + deny_score
  let conf0 : ℚ := if 0 < total then max allow_score deny_score / total else 0
  let conf : ℚ := match strong with
    | some st => max conf0 st.confidence
    | none => conf0
  let recommend : Option String := match strong with
    | some st => some st.recommend
    | none =>
      if conf0 < MIN_CONF ∨ total ≤ 1 / 1000000000 then none
      else if deny_score ≤ allow_score then some "approve" else some "deny"
  let evidence : List EvidenceItem := match policy_hits with
    | [] => []
    | h :: _ => [mkEvidence h]
  let stats := load_precedent_stats counters tag
  let total_cases : ℤ := rowGet stats "allow" + rowGet stats "deny"
  let allow_rate : ℚ := if total_cases = 0 then 0 else (rowGet stats "allow" : ℚ) / total_cases
  { decision := if recommend.isSome then "recommendation" else "needs_review"
    via := if recommend.isSome then "policy_rag" else "policy_rag_low_conf"
    recommend := recommend
    confidence := round3 conf
    explanation :=
      if recommend.isSome then
        "Policy + precedent similarity blend with similarity-weighted voting."
      else "Evidence not decisive; escalate to reviewer."
    evidence := evidence
    precedent :=
      { tag := tag
        stats := stats
        allow_rate := round3 allow_rate
        hint :=
          if 60 / 100 ≤ allow_rate then "Historically approved in similar cases."
          else if allow_rate ≤ 40 / 100 then "Historically denied in similar cases."
          else "Mixed precedent." } }

/-! ### Precedent recorder (app/precedent.py lines 48-91) -/

/-- The outcome canonicalisation `(outcome or "").lower().strip()` followed by
the synonym rewrites `approve` to `allow` and `reject` to `deny`.  The same
three lines appear in precedent.py lines 60-62 and main.py lines 64-66. -/
def canon_outcome (o : String) : String :=
  let c : String := ⟨pyStrip (pyLower o.data)⟩
  if c = "approve" then "allow" else if c = "reject" then "deny" else c

/-- A stored `PrecedentCase`: the vector-index entry `_prec_col.add` creates
(precedent.py lines 80-84), flattened to the fields the engine writes. -/
structure PrecCase where
  id : String
  document : String
  outcome : String
  tag : String
  raw : String
  norm : String
  ts : ℤ
  extra : List (String × String)
deriving DecidableEq, Repr

/-- The shared mutable state the recorder touches: the `PrecedentCases`
collection and the counter file. -/
structure PrecState where
  cases : List PrecCase
  counters : Counters
deriving Repr

/-- The counter update of precedent.py lines 87-91: read the tag's row (a
fresh `{"allow": 0, "deny": 0}` when absent), increment one outcome by one,
write the row back. -/
def bump_counters (counters : Counters) (tag outcome : String) : Counters :=
  let row := (getk counters tag).getD [("allow", 0), ("deny", 0)]
  let row2 := setk row outcome (rowGet row outcome + 1)
  setk counters tag row2

/-- `record_precedent` from app/precedent.py lines 48-91.  The timestamp and
the fresh uuid are passed in; the `ValueError` raise is the `.error`
branch, taken before any write. -/
def record_precedent (reason_text_raw : String) (outcome : String)
    (meta : List (String × String)) (tagOpt : Option String)
    (normOpt : Option String) (ts : ℤ) (newId : String)
    (st : PrecState) : Except String PrecState :=
  let o := canon_outcome outcome
  if o ≠ "allow" ∧ o ≠ "deny" then .error "outcome must be allow or deny"
  else
    let t0 := tagOpt.getD ""
    let tag := if t0 = "" then inferTag reason_text_raw else t0
    let norm : String := ⟨pyStrip (normOpt.getD "").data⟩
    .ok { cases := st.cases ++
            [{ id := newId, document := reason_text_raw, outcome := o, tag := tag,
               raw := reason_text_raw, norm := norm, ts := ts, extra := meta }]
          counters := bump_counters st.counters tag o }

/-! ### The HTTP operations (app/main.py) -/

/-- The dict the `>48h` fast path returns (main.py lines 44-50).  It has no
`recommend` key. -/
structure FastPayload where
  decision : String
  via : String
  confidence : ℚ
  explanation : String
  deadline_meta : DeadlineMeta
deriving DecidableEq, Repr

/-- The three response shapes of `POST /request`: the 400 error dict of
main.py lines 38-41, the fast-path dict of lines 44-50, and the
`policy_lookup` payload with `deadline_meta` attached (lines 52-54). -/
inductive DecideResult where
  | invalid (error message : String)
  | fast (p : FastPayload)
  | rag (p : Payload) (meta : DeadlineMeta)
deriving DecidableEq, Repr

/-- `submit_request` from app/main.py lines 23-54.  `now` is the instant
`now_utc()` returns (frozen demo clock or wall clock); the evidence backends
are the `policyRes` and `counters` data. -/
def submit_request (deadline_iso : String) (_days_requested : ℤ)
    (reason_text : String) (now : DateTime) (policyRes : QueryRes)
    (counters : Counters) : DecideResult :=
  match parse_iso_z deadline_iso with
  | .error e => .invalid "invalid_deadline_iso" e
  | .ok dl =>
    let dl_meta := deadline_meta_of dl now
    let r := auto_approve_beyond_48h dl now
    if r.1 then
      .fast { decision := "approve", via := "rule_beyond_48h", confidence := 1,
              explanation := fmt1 r.2 ++ "h to deadline (> 48h) → auto-approve.",
              deadline_meta := dl_meta }
    else
      .rag (policy_lookup reason_text policyRes counters) dl_meta

/-- The value stored under the key `decision`, when the response dict has
one. -/
def DecideResult.decisionField : DecideResult → Option String
  | .invalid _ _ => none
  | .fast p => some p.decision
  | .rag p _ => some p.decision

/-- The value stored under the key `via`, when the response dict has one. -/
def DecideResult.viaField : DecideResult → Option String
  | .invalid _ _ => none
  | .fast p => some p.via
  | .rag p _ => some p.via

/-- The value stored under the key `confidence`, when the response dict has
one. -/
def DecideResult.confidenceField : DecideResult → Option ℚ
  | .invalid _ _ => none
  | .fast p => some p.confidence
  | .rag p _ => some p.confidence

/-- The value stored under the key `recommend`, when the response dict has
one; the fast-path and error dicts carry no such key. -/
def DecideResult.recommendField : DecideResult → Option (Option String)
  | .invalid _ _ => none
  | .fast _ => none
  | .rag p _ => some p.recommend

/-- Whether the response is the 400 `invalid_deadline_iso` error. -/
def DecideResult.isInvalid : DecideResult → Bool
  | .invalid _ _ => true
  | _ => false

/-- The `policy_lookup` payload of an evidence-path response. -/
def DecideResult.ragPayload : DecideResult → Option Payload
  | .rag p _ => some p
  | _ => none

/-- The result of `POST /review`: the 400 dict of main.py line 68 (or an
uncaught exception, status 500), or the `ok` dict of line 81. -/
inductive ReviewResult where
  | err (status : ℕ) (message : String)
  | ok (tag outcome : String)
deriving DecidableEq, Repr

/-- `review_request` from app/main.py lines 56-81, returning the response
together with the precedent state after the call.  The `.err 500` branch
models an uncaught `record_precedent` exception; it is unreachable because
the outcome is already canonical when `record_precedent` is reached. -/
def review_request (deadline_iso : String) (days_requested : ℤ)
    (reason_text : String) (outcome : String) (reviewer : String)
    (ts : ℤ) (newId : String) (st : PrecState) : ReviewResult × PrecState :=
  let o := canon_outcome outcome
  if o ≠ "allow" ∧ o ≠ "deny" then (.err 400 "Outcome must be allow/deny", st)
  else
    let norm := normalize_reason reason_text
    let tag := tag_reason reason_text
    let meta := [("deadline_iso", deadline_iso),
                 ("days_requested", toString days_requested), ("reviewer", reviewer)]
    match record_precedent reason_text o meta (some tag) (some norm) ts newId st with
    | .ok st2 => (.ok tag o, st2)
    | .error e => (.err 500 e, st)

/-- One `record_precedent` call as a total state step; the error case keeps
the state (nothing was written before the raise). -/
def recordStep (raw : String) (outcome : String) (tagOpt : Option String)
    (ts : ℤ) (newId : String) (st : PrecState) : PrecState :=
  match record_precedent raw outcome [] tagOpt none ts newId st with
  | .ok s2 => s2
  | .error _ => st

/-- `n` sequential successful `record_precedent` calls with outcome `allow`
and an explicit tag, with per-call timestamps and ids. -/
def recordNAllow (raw tag : String) (tss : ℕ → ℤ) (ids : ℕ → String) :
    ℕ → PrecState → PrecState
  | 0, st => st
  | n + 1, st =>
    recordNAllow raw tag tss ids n (recordStep raw "allow" (some tag) (tss n) (ids n) st)

/-- The `allow` count the counter file holds for a tag (0 when the tag or the
key is absent). -/
def allowCount (c : Counters) (tag : String) : ℤ := rowGet ((getk c tag).getD []) "allow"

/-- The `deny` count the counter file holds for a tag. -/
def denyCount (c : Counters) (tag : String) : ℤ := rowGet ((getk c tag).getD []) "deny"

/-! ### Spec-side definitions for claim C6 -/

/-- The 20-character shape `dddd-dd-ddTdd:dd:ddZ` of the claimed grammar,
matched on the raw characters. -/
def isoShapeZ : List Char → Bool
  | [a, b, c, d, k1, e, f, k2, g, h, k3, i, j, k4, l, m, k5, n, o, k6] =>
    a.isDigit && b.isDigit && c.isDigit && d.isDigit && k1 == '-' &&
    e.isDigit && f.isDigit && k2 == '-' && g.isDigit && h.isDigit &&
    k3 == 'T' && i.isDigit && j.isDigit && k4 == ':' && l.isDigit &&
    m.isDigit && k5 == ':' && n.isDigit && o.isDigit && k6 == 'Z'
  | _ => false

/-- The same shape with the `+00:00` suffix in place of `Z`. -/
def isoShapePlus (s : List Char) : Bool :=
  isoShapeZ (normPlusSuffix s) && "+00:00".data.isSuffixOf s

/-- The grammar exactly as claim C6 words it: four-digit year, two-digit
month/day/hour/minute/second, literal `T`, and a `Z` or `+00:00` suffix, on
the string as given. -/
def claimGrammarOk (s : String) : Bool := isoShapeZ s.data || isoShapePlus s.data

/-- The deadline strings the code actually accepts, stated declaratively:
after trimming whitespace and upper-casing, the string prints some calendar-
valid datetime in the `Z` or the `+00:00` form. -/
def specAcceptsDeadline (s : String) : Prop :=
  ∃ dt : DateTime, validCalendar dt = true ∧
    (pyUpper (pyStrip s.data) = isoCore dt ++ ['Z'] ∨
     pyUpper (pyStrip s.data) = isoCore dt ++ "+00:00".data)

/-! ## Helper lemmas -/

theorem strContains_iff_isInfix (s sub : List Char) :
    strContains s sub = true ↔ sub <:+: s := by
  induction s with
  | nil => simp [strContains, List.isEmpty_iff]
  | cons c t ih =>
    simp only [strContains, Bool.or_eq_true, List.isPrefixOf_iff_prefix, ih,
      List.infix_cons_iff]

theorem strContains_of_isPrefix {s sub1 sub2 : List Char} (hp : sub1 <+: sub2)
    (h : strContains s sub2 = true) : strContains s sub1 = true := by
  rw [strContains_iff_isInfix] at h ⊢
  exact hp.isInfix.trans h

theorem mem_insertHit {x h : Hit} {l : List Hit} :
    x ∈ insertHit h l ↔ x = h ∨ x ∈ l := by
  induction l with
  | nil => simp [insertHit]
  | cons a t ih =>
    by_cases hc : a.similarity < h.similarity <;>
      simp [insertHit, hc, ih] <;> tauto

theorem length_insertHit (h : Hit) (l : List Hit) :
    (insertHit h l).length = l.length + 1 := by
  induction l with
  | nil => rfl
  | cons a t ih =>
    by_cases hc : a.similarity < h.similarity <;> simp [insertHit, hc, ih]

theorem sorted_insertHit {h : Hit} {l : List Hit}
    (hs : l.Sorted (fun a b => b.similarity ≤ a.similarity)) :
    (insertHit h l).Sorted (fun a b => b.similarity ≤ a.similarity) := by
  induction l with
  | nil => simp [insertHit]
  | cons a t ih =>
    rw [List.sorted_cons] at hs
    by_cases hc : a.similarity < h.similarity
    · rw [insertHit, if_pos hc, List.sorted_cons]
      refine ⟨?_, List.sorted_cons.mpr hs⟩
      intro b hb
      rcases List.mem_cons.mp hb with hb | hb
      · exact hb ▸ le_of_lt hc
      · exact le_trans (hs.1 b hb) (le_of_lt hc)
    · rw [insertHit, if_neg hc, List.sorted_cons]
      refine ⟨?_, ih hs.2⟩
      intro b hb
      rcases mem_insertHit.mp hb with hb | hb
      · exact hb ▸ le_of_not_lt hc
      · exact hs.1 b hb

theorem mem_sortHits {x : Hit} {l : List Hit} : x ∈ sortHits l ↔ x ∈ l := by
  induction l with
  | nil => rfl
  | cons a t ih => simp [sortHits, mem_insertHit, ih]

theorem length_sortHits (l : List Hit) : (sortHits l).length = l.length := by
  induction l with
  | nil => rfl
  | cons a t ih => simp [sortHits, length_insertHit, ih]

theorem sorted_sortHits (l : List Hit) :
    (sortHits l).Sorted (fun a b => b.similarity ≤ a.similarity) := by
  induction l with
  | nil => simp [sortHits]
  | cons a t ih => exact sorted_insertHit ih

theorem length_zip3 {α β γ : Type} (as : List α) (bs : List β) (cs : List γ) :
    (zip3 as bs cs).length ≤ cs.length := by
  induction as generalizing bs cs with
  | nil => cases bs <;> cases cs <;> simp [zip3]
  | cons a at2 ih =>
    cases bs <;> cases cs <;> simp [zip3]
    exact ih _ _

theorem mem_zip3_right {α β γ : Type} {r : α × β × γ} {as : List α}
    {bs : List β} {cs : List γ} (h : r ∈ zip3 as bs cs) : r.2.2 ∈ cs := by
  induction as generalizing bs cs with
  | nil => cases bs <;> cases cs <;> simp [zip3] at h
  | cons a at2 ih =>
    cases bs with
    | nil => simp [zip3] at h
    | cons b bt =>
      cases cs with
      | nil => simp [zip3] at h
      | cons c ct =>
        rcases List.mem_cons.mp h with h | h
        · subst h; exact List.mem_cons_self _ _
        · exact List.mem_cons_of_mem _ (ih h)

theorem simOfDist_nonneg (d : ℚ) : 0 ≤ simOfDist d := le_max_left 0 _

theorem simOfDist_le_one (d : ℚ) : simOfDist d ≤ 1 :=
  max_le (by norm_num) (min_le_left 1 _)

theorem mem_toPolicyHits {res : QueryRes} {x : Hit} (hx : x ∈ toPolicyHits res) :
    ∃ d ∈ res.dists, x.similarity = simOfDist d := by
  rw [toPolicyHits, mem_sortHits, List.mem_map] at hx
  obtain ⟨r, hr, hrx⟩ := hx
  exact ⟨r.2.2, mem_zip3_right hr, by rw [← hrx]; rfl⟩

theorem toPolicyHits_sim_nonneg {res : QueryRes} {x : Hit}
    (hx : x ∈ toPolicyHits res) : 0 ≤ x.similarity := by
  obtain ⟨d, _, hd⟩ := mem_toPolicyHits hx
  rw [hd]; exact simOfDist_nonneg d

theorem toPolicyHits_sim_le_one {res : QueryRes} {x : Hit}
    (hx : x ∈ toPolicyHits res) : x.similarity ≤ 1 := by
  obtain ⟨d, _, hd⟩ := mem_toPolicyHits hx
  rw [hd]; exact simOfDist_le_one d

theorem polAllowScore_nonneg {hits : List Hit}
    (h : ∀ x ∈ hits, 0 ≤ x.similarity) : 0 ≤ polAllowScore hits := by
  apply List.sum_nonneg
  intro q hq
  rw [List.mem_map] at hq
  obtain ⟨x, hx, hxq⟩ := hq
  exact hxq ▸ h x (List.mem_of_mem_filter hx)

theorem polDenyScore_nonneg {hits : List Hit}
    (h : ∀ x ∈ hits, 0 ≤ x.similarity) : 0 ≤ polDenyScore hits := by
  apply List.sum_nonneg
  intro q hq
  rw [List.mem_map] at hq
  obtain ⟨x, hx, hxq⟩ := hq
  exact hxq ▸ h x (List.mem_of_mem_filter hx)

theorem allowScore_stub_nonneg {res : QueryRes} {phits : List PrecHit}
    (hp : phits = []) : 0 ≤ allowScore (toPolicyHits res) phits := by
  subst hp
  have := polAllowScore_nonneg (fun x hx => @toPolicyHits_sim_nonneg res x hx)
  simp only [allowScore, preAllowScore, PRECEDENT_WEIGHT]
  simp [List.filter]
  linarith

theorem denyScore_stub_nonneg {res : QueryRes} {phits : List PrecHit}
    (hp : phits = []) : 0 ≤ denyScore (toPolicyHits res) phits := by
  subst hp
  have := polDenyScore_nonneg (fun x hx => @toPolicyHits_sim_nonneg res x hx)
  simp only [denyScore, preDenyScore, PRECEDENT_WEIGHT]
  simp [List.filter]
  linarith

theorem getk_setk_same {α : Type} (l : List (String × α)) (k : String) (v : α) :
    getk (setk l k v) k = some v := by
  induction l with
  | nil => simp [setk, getk]
  | cons a t ih =>
    by_cases hc : a.1 = k
    · cases a; subst hc; simp [setk, getk]
    · cases a; simp_all [setk, getk]

theorem getk_setk_ne {α : Type} (l : List (String × α)) {k k2 : String}
    (h : k2 ≠ k) (v : α) : getk (setk l k v) k2 = getk l k2 := by
  induction l with
  | nil => simp [setk, getk, Ne.symm h]
  | cons a t ih =>
    by_cases hc : a.1 = k
    · cases a; subst hc; simp [setk, getk, h, Ne.symm h]
    · cases a; simp_all [setk, getk]

theorem hours_lt_iff (dl now : DateTime) :
    48 < hours_to_deadline dl now ↔ 172800 < dtEpoch dl - dtEpoch now := by
  rw [hours_to_deadline, lt_div_iff (by norm_num : (0 : ℚ) < 3600)]
  constructor <;> intro h
  · exact_mod_cast h
  · push_cast
    exact_mod_cast h

theorem hours_le_iff (dl now : DateTime) :
    hours_to_deadline dl now ≤ 48 ↔ dtEpoch dl - dtEpoch now ≤ 172800 := by
  rw [hours_to_deadline, div_le_iff (by norm_num : (0 : ℚ) < 3600)]
  constructor <;> intro h
  · exact_mod_cast h
  · push_cast
    exact_mod_cast h

theorem round3_zero : round3 0 = 0 := by
  have h : ⌊(1000 : ℚ) * 0 + 1 / 2⌋ = 0 := by
    rw [Int.floor_eq_iff]
    norm_num
  rw [round3, h]
  norm_num

theorem round3_nonneg {q : ℚ} (h : 0 ≤ q) : 0 ≤ round3 q := by
  rw [round3]
  apply div_nonneg _ (by norm_num)
  have : (0 : ℤ) ≤ ⌊1000 * q + 1 / 2⌋ := by
    apply Int.floor_nonneg.mpr
    positivity
  exact_mod_cast this

theorem round3_le_one {q : ℚ} (h : q ≤ 1) : round3 q ≤ 1 := by
  rw [round3]
  rw [div_le_one (by norm_num : (0 : ℚ) < 1000)]
  have h1 : ⌊1000 * q + 1 / 2⌋ ≤ ⌊(1000 : ℚ) + 1 / 2⌋ := by
    apply Int.floor_le_floor
    linarith
  have h2 : ⌊(1000 : ℚ) + 1 / 2⌋ = 1000 := by
    rw [Int.floor_eq_iff]
    norm_num
  calc (⌊1000 * q + 1 / 2⌋ : ℚ) ≤ (⌊(1000 : ℚ) + 1 / 2⌋ : ℚ) := by exact_mod_cast h1
    _ = 1000 := by rw [h2]; norm_num

theorem char_toNat_of_isDigit {c : Char} (h : c.isDigit = true) :
    48 ≤ c.toNat ∧ c.toNat ≤ 57 := by
  simp [Char.isDigit] at h
  exact h

theorem digitChar_digitVal {c : Char} (h : c.isDigit = true) :
    digitChar (digitVal c) = c := by
  obtain ⟨h1, h2⟩ := char_toNat_of_isDigit h
  have h48 : 48 + digitVal c = c.toNat := by
    simp only [digitVal]
    omega
  rw [digitChar, h48, Char.ofNat_toNat]

theorem digitChar_isDigit {m : ℕ} (h : m ≤ 9) : (digitChar m).isDigit = true := by
  interval_cases m <;> decide

theorem digitVal_digitChar {m : ℕ} (h : m ≤ 9) : digitVal (digitChar m) = m := by
  interval_cases m <;> decide

theorem digitVal_lt {c : Char} (h : c.isDigit = true) : digitVal c < 10 := by
  obtain ⟨h1, h2⟩ := char_toNat_of_isDigit h
  simp only [digitVal]
  omega

theorem isoCore_length (dt : DateTime) : (isoCore dt).length = 19 := by
  simp [isoCore, pad4, pad2]

theorem isoCore_explicit (dt : DateTime) :
    isoCore dt = [digitChar (dt.year / 1000 % 10), digitChar (dt.year / 100 % 10),
      digitChar (dt.year / 10 % 10), digitChar (dt.year % 10), '-',
      digitChar (dt.month / 10 % 10), digitChar (dt.month % 10), '-',
      digitChar (dt.day / 10 % 10), digitChar (dt.day % 10), 'T',
      digitChar (dt.hour / 10 % 10), digitChar (dt.hour % 10), ':',
      digitChar (dt.minute / 10 % 10), digitChar (dt.minute % 10), ':',
      digitChar (dt.second / 10 % 10), digitChar (dt.second % 10)] := rfl

theorem daysInMonth_le (y m : ℕ) : daysInMonth y m ≤ 31 := by
  rw [daysInMonth]
  split
  · split <;> omega
  · split <;> omega

theorem validCalendar_bounds {dt : DateTime} (h : validCalendar dt = true) :
    1 ≤ dt.year ∧ dt.year ≤ 9999 ∧ 1 ≤ dt.month ∧ dt.month ≤ 12 ∧ 1 ≤ dt.day ∧
    dt.day ≤ 31 ∧ dt.hour ≤ 23 ∧ dt.minute ≤ 59 ∧ dt.second ≤ 59 := by
  simp [validCalendar] at h
  have hd := daysInMonth_le dt.year dt.month
  omega

theorem num4_digits {y : ℕ} (h : y ≤ 9999) :
    num4 (digitChar (y / 1000 % 10)) (digitChar (y / 100 % 10))
      (digitChar (y / 10 % 10)) (digitChar (y % 10)) = y := by
  rw [num4, digitVal_digitChar (by omega), digitVal_digitChar (by omega),
    digitVal_digitChar (by omega), digitVal_digitChar (by omega)]
  omega

theorem num2_digits {m : ℕ} (h : m ≤ 99) :
    num2 (digitChar (m / 10 % 10)) (digitChar (m % 10)) = m := by
  rw [num2, digitVal_digitChar (by omega), digitVal_digitChar (by omega)]
  omega

theorem plus_not_suffix_z (l : List Char) :
    "+00:00".data.isSuffixOf (l ++ ['Z']) = false := by
  rw [← Bool.not_eq_true, List.isSuffixOf_iff_suffix]
  intro hsuf
  obtain ⟨p, hp⟩ := hsuf
  have h1 : (p ++ "+00:00".data).getLast? = some '0' := by
    rw [List.getLast?_append_of_ne_nil p (by decide)]
    decide
  rw [hp] at h1
  have h2 : (l ++ ['Z']).getLast? = some 'Z' := by
    rw [List.getLast?_append_of_ne_nil l (by decide)]
    rfl
  rw [h1] at h2
  simp at h2

theorem normPlus_z (l : List Char) : normPlusSuffix (l ++ ['Z']) = l ++ ['Z'] := by
  rw [normPlusSuffix, plus_not_suffix_z]
  simp

theorem normPlus_plus (l : List Char) :
    normPlusSuffix (l ++ "+00:00".data) = l ++ ['Z'] := by
  have hsuf : "+00:00".data.isSuffixOf (l ++ "+00:00".data) = true :=
    List.isSuffixOf_iff_suffix.mpr (List.suffix_append _ _)
  rw [normPlusSuffix, if_pos hsuf, List.length_append]
  have h6 : ("+00:00".data).length = 6 := rfl
  rw [h6, Nat.add_sub_cancel, List.take_left]

theorem parse_eval {s : String} (hne : ¬ s.data = []) {dt : DateTime}
    (hv : validCalendar dt = true)
    (h : normPlusSuffix (pyUpper (pyStrip s.data)) = isoCore dt ++ ['Z']) :
    parse_iso_z s = .ok dt := by
  obtain ⟨hy1, hy2, hm1, hm2, hd1, hd2, hh, hmi, hs2⟩ := validCalendar_bounds hv
  rw [parse_iso_z, if_neg hne, h, isoCore_explicit]
  simp only [List.cons_append, List.nil_append]
  simp only [digitChar_isDigit (Nat.le_of_lt_succ (Nat.mod_lt _ (by norm_num))),
    Bool.true_and, beq_self_eq_true]
  norm_num
  rw [num4_digits hy2, num2_digits (by omega), num2_digits (by omega),
    num2_digits (by omega), num2_digits (by omega), num2_digits (by omega)]
  have heta : (⟨dt.year, dt.month, dt.day, dt.hour, dt.minute, dt.second⟩ : DateTime) = dt := rfl
  rw [heta, if_pos hv]

theorem pad4_digits {a b c d : Char} (ha : a.isDigit = true) (hb : b.isDigit = true)
    (hc : c.isDigit = true) (hd : d.isDigit = true) :
    pad4 (num4 a b c d) = [a, b, c, d] := by
  have la := digitVal_lt ha
  have lb := digitVal_lt hb
  have lc := digitVal_lt hc
  have ld := digitVal_lt hd
  have e1 : num4 a b c d / 1000 % 10 = digitVal a := by rw [num4]; omega
  have e2 : num4 a b c d / 100 % 10 = digitVal b := by rw [num4]; omega
  have e3 : num4 a b c d / 10 % 10 = digitVal c := by rw [num4]; omega
  have e4 : num4 a b c d % 10 = digitVal d := by rw [num4]; omega
  rw [pad4, e1, e2, e3, e4, digitChar_digitVal ha, digitChar_digitVal hb,
    digitChar_digitVal hc, digitChar_digitVal hd]

theorem pad2_digits {a b : Char} (ha : a.isDigit = true) (hb : b.isDigit = true) :
    pad2 (num2 a b) = [a, b] := by
  have la := digitVal_lt ha
  have lb := digitVal_lt hb
  have e1 : num2 a b / 10 % 10 = digitVal a := by rw [num2]; omega
  have e2 : num2 a b % 10 = digitVal b := by rw [num2]; omega
  rw [pad2, e1, e2, digitChar_digitVal ha, digitChar_digitVal hb]

theorem spec_of_parse_ok {s : String} {dt : DateTime} (h : parse_iso_z s = .ok dt) :
    validCalendar dt = true ∧
      (pyUpper (pyStrip s.data) = isoCore dt ++ ['Z'] ∨
       pyUpper (pyStrip s.data) = isoCore dt ++ "+00:00".data) := by
  rw [parse_iso_z] at h
  split at h
  · simp at h
  · rename_i hne
    split at h
    case h_2 => simp at h
    case h_1 a b c d k1 e f k2 g g2 k3 i j k4 l m k5 n o k6 heq =>
      split at h
      case isFalse => simp at h
      case isTrue hcond =>
        simp only [] at h
        split at h
        case isFalse => simp at h
        case isTrue hv =>
          simp only [Except.ok.injEq] at h
          subst h
          simp only [Bool.and_eq_true, beq_iff_eq] at hcond
          obtain ⟨⟨⟨⟨⟨⟨⟨⟨⟨⟨⟨⟨⟨⟨⟨⟨⟨⟨⟨ha, hb⟩, hc⟩, hd⟩, hk1⟩, he⟩, hf⟩, hk2⟩,
            hg⟩, hg2⟩, hk3⟩, hi⟩, hj⟩, hk4⟩, hl⟩, hm⟩, hk5⟩, hn⟩, ho⟩, hk6⟩ := hcond
          refine ⟨hv, ?_⟩
          have hcore : isoCore
              (⟨num4 a b c d, num2 e f, num2 g g2, num2 i j, num2 l m, num2 n o⟩ :
                DateTime) ++ ['Z'] =
              [a, b, c, d, k1, e, f, k2, g, g2, k3, i, j, k4, l, m, k5, n, o, k6] := by
            rw [isoCore]
            simp only
            rw [pad4_digits ha hb hc hd, pad2_digits he hf, pad2_digits hg hg2,
              pad2_digits hi hj, pad2_digits hl hm, pad2_digits hn ho,
              hk1, hk2, hk3, hk4, hk5, hk6]
            simp
          rw [← hcore] at heq
          rw [normPlusSuffix] at heq
          split at heq
          case isTrue hsuf =>
            right
            rw [List.isSuffixOf_iff_suffix] at hsuf
            obtain ⟨p, hp⟩ := hsuf
            have hlen : (pyUpper (pyStrip s.data)).length = p.length + 6 := by
              rw [← hp, List.length_append]
              rfl
            rw [hlen, Nat.add_sub_cancel, ← hp, List.take_left] at heq
            have hpz := List.append_left_injective ['Z'] heq
            rw [← hp, hpz]
          case isFalse hsuf =>
            left
            exact heq

theorem parse_ok_iff_spec (s : String) :
    (∃ dt, parse_iso_z s = .ok dt) ↔ specAcceptsDeadline s := by
  constructor
  · rintro ⟨dt, h⟩
    obtain ⟨hv, hu⟩ := spec_of_parse_ok h
    exact ⟨dt, hv, hu⟩
  · rintro ⟨dt, hv, hZ | hP⟩
    · have hne : ¬ s.data = [] := by
        intro h0
        rw [h0] at hZ
        have hlen := congrArg List.length hZ
        simp only [pyUpper, pyStrip, List.dropWhile_nil, List.reverse_nil,
          List.map_nil, List.length_nil, List.length_append, isoCore_length] at hlen
        simp at hlen
      exact ⟨dt, parse_eval hne hv (by rw [hZ, normPlus_z])⟩
    · have hne : ¬ s.data = [] := by
        intro h0
        rw [h0] at hP
        have hlen := congrArg List.length hP
        simp only [pyUpper, pyStrip, List.dropWhile_nil, List.reverse_nil,
          List.map_nil, List.length_nil, List.length_append, isoCore_length] at hlen
        simp at hlen
      exact ⟨dt, parse_eval hne hv (by rw [hP, normPlus_plus])⟩

theorem conf0_bounds {a d : ℚ} (ha : 0 ≤ a) (hd : 0 ≤ d) :
    0 ≤ (if 0 < a + d then max a d / (a + d) else 0) ∧
      (if 0 < a + d then max a d / (a + d) else 0) ≤ 1 := by
  split
  · rename_i hpos
    constructor
    · exact div_nonneg (le_trans ha (le_max_left a d)) (le_of_lt hpos)
    · rw [div_le_one hpos]
      exact max_le (by linarith) (by linarith)
  · norm_num

theorem strong_conf_eq {hits : List Hit} {m : ℚ} {st : StrongRec}
    (h : strong_cue_decision hits m = some st) : st.confidence = max m (65 / 100) := by
  rw [strong_cue_decision] at h
  split at h
  · simp only [Option.some.injEq] at h
    rw [← h]
  · split at h
    · simp only [Option.some.injEq] at h
      rw [← h]
    · simp at h

theorem seriousKeywords_agree (s : List Char) :
    containsAny s ["hospital", "injury", "broken wrist", "surgery"] =
    containsAny s ["hospital", "hospitalized", "surgery", "broken wrist", "injury"] := by
  rw [Bool.eq_iff_iff]
  simp only [containsAny, List.any_cons, List.any_nil, Bool.or_false, Bool.or_eq_true]
  constructor
  · rintro (h | h | h | h) <;> tauto
  · rintro (h | h | h | h | h)
    · tauto
    · have hh : strContains s "hospital".data = true :=
        strContains_of_isPrefix (by decide) h
      tauto
    · tauto
    · tauto
    · tauto

theorem bump_allow_same (c : Counters) (T : String) :
    allowCount (bump_counters c T "allow") T = allowCount c T + 1 ∧
    denyCount (bump_counters c T "allow") T = denyCount c T := by
  cases hg : getk c T with
  | none =>
    simp [bump_counters, hg, allowCount, denyCount, rowGet, getk_setk_same, getk, setk]
  | some row =>
    constructor
    · simp only [bump_counters, hg, allowCount, Option.getD_some, getk_setk_same, rowGet]
    · simp only [bump_counters, hg, denyCount, Option.getD_some, getk_setk_same, rowGet]
      rw [getk_setk_ne _ (by decide : "deny" ≠ "allow")]

theorem bump_other_tag (c : Counters) {T T2 : String} (h : T2 ≠ T) (outcome : String) :
    getk (bump_counters c T outcome) T2 = getk c T2 := by
  rw [bump_counters]
  exact getk_setk_ne _ h _

theorem recordStep_allow_state (raw T : String) (hT : ¬ T = "") (ts : ℤ) (id : String)
    (st : PrecState) :
    (recordStep raw "allow" (some T) ts id st).counters = bump_counters st.counters T "allow" ∧
    (recordStep raw "allow" (some T) ts id st).cases.length = st.cases.length + 1 := by
  have hco : canon_outcome "allow" = "allow" := by decide
  rw [recordStep, record_precedent, hco]
  rw [if_neg (by simp)]
  simp only [Option.getD_some]
  rw [if_neg hT]
  simp

theorem submit_fast_eq {s : String} {dl now : DateTime} (days : ℤ) (reason : String)
    (res : QueryRes) (cnt : Counters)
    (hp : parse_iso_z s = .ok dl) (hh : 48 < hours_to_deadline dl now) :
    submit_request s days reason now res cnt =
      .fast ⟨"approve", "rule_beyond_48h", 1,
        fmt1 (hours_to_deadline dl now) ++ "h to deadline (> 48h) → auto-approve.",
        deadline_meta_of dl now⟩ := by
  rw [submit_request, hp]
  simp only [auto_approve_beyond_48h]
  rw [if_pos (decide_eq_true hh)]

theorem submit_rag_eq {s : String} {dl now : DateTime} (days : ℤ) (reason : String)
    (res : QueryRes) (cnt : Counters)
    (hp : parse_iso_z s = .ok dl) (hh : hours_to_deadline dl now ≤ 48) :
    submit_request s days reason now res cnt =
      .rag (policy_lookup reason res cnt) (deadline_meta_of dl now) := by
  rw [submit_request, hp]
  simp only [auto_approve_beyond_48h]
  rw [if_neg (by simp [not_lt.mpr hh])]

/-! ## Claim theorems -/

/-- C1, counterexample to the claim as stated: a request whose deadline parses
and lies more than 48 hours ahead is answered by the fast path, whose response
dict carries the approve verdict under the `decision` key and has no
`recommend` key at all, so `recommend=approve` fails. -/
theorem C1_counterexample :
    parse_iso_z "2031-01-01T00:00:00Z" = .ok ⟨2031, 1, 1, 0, 0, 0⟩ ∧
    48 < hours_to_deadline ⟨2031, 1, 1, 0, 0, 0⟩ ⟨2025, 1, 1, 0, 0, 0⟩ ∧
    (submit_request "2031-01-01T00:00:00Z" 3 "flu again" ⟨2025, 1, 1, 0, 0, 0⟩
      ⟨[], [], []⟩ []).recommendField = none ∧
    (submit_request "2031-01-01T00:00:00Z" 3 "flu again" ⟨2025, 1, 1, 0, 0, 0⟩
      ⟨[], [], []⟩ []).recommendField ≠ some (some "approve") := by
  have hp : parse_iso_z "2031-01-01T00:00:00Z" = .ok ⟨2031, 1, 1, 0, 0, 0⟩ := by decide
  have hh : 48 < hours_to_deadline ⟨2031, 1, 1, 0, 0, 0⟩ ⟨2025, 1, 1, 0, 0, 0⟩ :=
    (hours_lt_iff _ _).mpr (by decide)
  have hf := submit_fast_eq 3 "flu again" ⟨[], [], []⟩ [] hp hh
  refine ⟨hp, hh, ?_, ?_⟩
  · rw [hf]
    rfl
  · rw [hf]
    simp [DecideResult.recommendField]

/-- C1, amended: for every request whose deadline parses and whose hours_left
exceeds 48, Decide answers with decision `approve` (not `recommend`, a key the
fast-path dict lacks), via `rule_beyond_48h`, confidence 1.0, and the response
is the same whatever the evidence backends hold — no evidence lookup is
performed. -/
theorem C1_beyond_48h_amended (s : String) (dl now : DateTime) (days : ℤ)
    (reason : String) (res : QueryRes) (cnt : Counters)
    (hp : parse_iso_z s = .ok dl) (hh : 48 < hours_to_deadline dl now) :
    (submit_request s days reason now res cnt).decisionField = some "approve" ∧
    (submit_request s days reason now res cnt).viaField = some "rule_beyond_48h" ∧
    (submit_request s days reason now res cnt).confidenceField = some 1 ∧
    (submit_request s days reason now res cnt).recommendField = none ∧
    ∀ (days2 : ℤ) (reason2 : String) (res2 : QueryRes) (cnt2 : Counters),
      submit_request s days2 reason2 now res2 cnt2 =
        submit_request s days reason now res cnt := by
  have key := fun (days2 : ℤ) (reason2 : String) (res2 : QueryRes) (cnt2 : Counters) =>
    submit_fast_eq days2 reason2 res2 cnt2 hp hh
  refine ⟨?_, ?_, ?_, ?_, ?_⟩
  · rw [key days reason res cnt]
    rfl
  · rw [key days reason res cnt]
    rfl
  · rw [key days reason res cnt]
    rfl
  · rw [key days reason res cnt]
    rfl
  · intro days2 reason2 res2 cnt2
    rw [key days reason res cnt, key days2 reason2 res2 cnt2]

/-- C1, witness: the amended theorem applied to a concrete request six years
ahead of the frozen clock. -/
theorem C1_beyond_48h_witness :
    (submit_request "2031-01-01T00:00:00Z" 3 "flu" ⟨2025, 1, 1, 0, 0, 0⟩
      ⟨[], [], []⟩ []).decisionField = some "approve" ∧
    (submit_request "2031-01-01T00:00:00Z" 3 "flu" ⟨2025, 1, 1, 0, 0, 0⟩
      ⟨[], [], []⟩ []).viaField = some "rule_beyond_48h" ∧
    (submit_request "2031-01-01T00:00:00Z" 3 "flu" ⟨2025, 1, 1, 0, 0, 0⟩
      ⟨[], [], []⟩ []).confidenceField = some 1 ∧
    (submit_request "2031-01-01T00:00:00Z" 3 "flu" ⟨2025, 1, 1, 0, 0, 0⟩
      ⟨[], [], []⟩ []).recommendField = none := by
  have h := C1_beyond_48h_amended "2031-01-01T00:00:00Z" ⟨2031, 1, 1, 0, 0, 0⟩
    ⟨2025, 1, 1, 0, 0, 0⟩ 3 "flu" ⟨[], [], []⟩ [] (by decide)
    ((hours_lt_iff _ _).mpr (by decide))
  exact ⟨h.1, h.2.1, h.2.2.1, h.2.2.2.1⟩

/-- C2: `app.precedent` defines no `query_precedent`, so the import-time
fallback stub is bound and the precedent hit list inside `policy_lookup` is
always empty; consequently both precedent score terms are 0 and the blended
scores reduce to the policy side alone, scaled by `1 - PRECEDENT_WEIGHT`. -/
theorem C2_precedent_stub (q : String) (k : ℕ) (hits : List Hit) :
    precedent_query q k = [] ∧
    preAllowScore (precedent_query q 5) = 0 ∧
    preDenyScore (precedent_query q 5) = 0 ∧
    allowScore hits (precedent_query q 5) = (1 - PRECEDENT_WEIGHT) * polAllowScore hits ∧
    denyScore hits (precedent_query q 5) = (1 - PRECEDENT_WEIGHT) * polDenyScore hits := by
  refine ⟨rfl, rfl, rfl, ?_, ?_⟩
  · rw [allowScore]
    have h0 : preAllowScore (precedent_query q 5) = 0 := rfl
    rw [h0]
    ring
  · rw [denyScore]
    have h0 : preDenyScore (precedent_query q 5) = 0 := rfl
    rw [h0]
    ring

/-- C3: the confidence `policy_lookup` returns always lies in `[0, 1]`, and
when the blended total score is 0 while no strong cue fired, the confidence is
0, the recommendation is `None` and the decision is `needs_review`. -/
theorem C3_confidence (reason : String) (res : QueryRes) (cnt : Counters) :
    (0 ≤ (policy_lookup reason res cnt).confidence ∧
      (policy_lookup reason res cnt).confidence ≤ 1) ∧
    ((allowScore (toPolicyHits res) (precedent_query (normalize_reason reason) 5) +
        denyScore (toPolicyHits res) (precedent_query (normalize_reason reason) 5) = 0 ∧
      strong_cue_decision (toPolicyHits res) (58 / 100) = none) →
      (policy_lookup reason res cnt).confidence = 0 ∧
      (policy_lookup reason res cnt).recommend = none ∧
      (policy_lookup reason res cnt).decision = "needs_review") := by
  constructor
  · have hA : 0 ≤ allowScore (toPolicyHits res) [] := allowScore_stub_nonneg rfl
    have hD : 0 ≤ denyScore (toPolicyHits res) [] := denyScore_stub_nonneg rfl
    have hc0 := conf0_bounds hA hD
    simp only [policy_lookup, precedent_query]
    rcases hst : strong_cue_decision (toPolicyHits res) (58 / 100) with _ | st
    · exact ⟨round3_nonneg hc0.1, round3_le_one hc0.2⟩
    · have hsc := strong_conf_eq hst
      have h65 : st.confidence ≤ 1 := by rw [hsc]; norm_num
      constructor
      · exact round3_nonneg (le_trans hc0.1 (le_max_left _ _))
      · exact round3_le_one (max_le hc0.2 h65)
  · rintro ⟨h0, hsn⟩
    simp only [precedent_query] at h0
    simp only [policy_lookup, precedent_query, hsn]
    simp only [h0, lt_irrefl, if_false, reduceIte]
    norm_num [MIN_CONF, round3_zero]

/-- C3, witness: with empty backends the total score is 0, no strong cue
fires, and the payload is the zero-confidence `needs_review` escalation. -/
theorem C3_confidence_witness :
    (0 ≤ (policy_lookup "need more time" ⟨[], [], []⟩ []).confidence ∧
      (policy_lookup "need more time" ⟨[], [], []⟩ []).confidence ≤ 1) ∧
    (policy_lookup "need more time" ⟨[], [], []⟩ []).confidence = 0 ∧
    (policy_lookup "need more time" ⟨[], [], []⟩ []).recommend = none ∧
    (policy_lookup "need more time" ⟨[], [], []⟩ []).decision = "needs_review" := by
  have h := C3_confidence "need more time" ⟨[], [], []⟩ []
  refine ⟨h.1, h.2 ⟨?_, rfl⟩⟩
  have hz : toPolicyHits ⟨[], [], []⟩ = ([] : List Hit) := rfl
  rw [hz]
  norm_num [allowScore, denyScore, polAllowScore, polDenyScore, preAllowScore,
    preDenyScore, precedent_query]

/-- C4: the strong-cue override returns a recommendation exactly when one of
the two flags fires alone; the deny override carries confidence
`max min_sim 0.65`, the allow override likewise, and when both or neither
flag fires no override is returned. -/
theorem C4_strong_cue (hits : List Hit) (m : ℚ) :
    ((strong_cue_decision hits m).isSome =
      xor (strongDenyFlag hits m) (strongAllowFlag hits m)) ∧
    (strongDenyFlag hits m = true → strongAllowFlag hits m = false →
      strong_cue_decision hits m = some ⟨"deny", max m (65 / 100)⟩) ∧
    (strongAllowFlag hits m = true → strongDenyFlag hits m = false →
      strong_cue_decision hits m = some ⟨"approve", max m (65 / 100)⟩) ∧
    (strongDenyFlag hits m = strongAllowFlag hits m →
      strong_cue_decision hits m = none) := by
  rcases hd : strongDenyFlag hits m <;> rcases ha : strongAllowFlag hits m <;>
    simp [strong_cue_decision, hd, ha]

/-- C4, witness: a single policy hit labelled deny with similarity 0.9 whose
text contains "insufficient", and no allow cue, yields the deny override at
confidence `max 0.58 0.65 = 0.65`. -/
theorem C4_strong_cue_witness :
    strong_cue_decision
      [⟨"Policy: requests citing insufficient documentation are rejected.",
        ⟨some "deny", some "policy"⟩, 9 / 10, "policy"⟩] (58 / 100) =
      some ⟨"deny", 65 / 100⟩ ∧
    (65 : ℚ) / 100 ≥ 65 / 100 := by
  have hd : strongDenyFlag
      [⟨"Policy: requests citing insufficient documentation are rejected.",
        ⟨some "deny", some "policy"⟩, 9 / 10, "policy"⟩] (58 / 100) = true := by
    have h2 : decide ((58 : ℚ) / 100 ≤ 9 / 10) = true := by norm_num
    simp only [strongDenyFlag, List.any_cons, List.any_nil, Bool.or_false, h2]
    decide
  have ha : strongAllowFlag
      [⟨"Policy: requests citing insufficient documentation are rejected.",
        ⟨some "deny", some "policy"⟩, 9 / 10, "policy"⟩] (58 / 100) = false := by
    have hlab : (lowerOpt (some "deny") == "allow") = false := by decide
    simp only [strongAllowFlag, List.any_cons, List.any_nil, Bool.or_false, hlab,
      Bool.false_and]
  have h := (C4_strong_cue
    [⟨"Policy: requests citing insufficient documentation are rejected.",
      ⟨some "deny", some "policy"⟩, 9 / 10, "policy"⟩] (58 / 100)).2.1 hd ha
  rw [h, show max ((58 : ℚ) / 100) (65 / 100) = 65 / 100 from max_eq_right (by norm_num)]
  exact ⟨rfl, le_refl _⟩

/-- C5, counterexample to the claim as stated: on the text "hospital flu" the
Tagging component answers serious_injury (it tests the injury keywords
second) while the Precedent Recorder's inference answers minor_illness (it
tests the illness keywords second), so the two taggers differ. -/
theorem C5_counterexample :
    tag_reason "hospital flu" = "serious_injury" ∧
    inferTag "hospital flu" = "minor_illness" ∧
    tag_reason "hospital flu" ≠ inferTag "hospital flu" := by
  decide

/-- C5, amended: the Precedent Recorder's inferred tag follows the priority
order bereavement, then minor_illness, then serious_injury, then travel, then
other — minor illness before serious injury, unlike Tagging — and the two
taggers coincide exactly on every text that does not match both a
serious-injury keyword and a minor-illness keyword. -/
theorem C5_tag_agreement_amended (r : String)
    (h : ¬ (containsAny (pyLower r.data)
        ["hospital", "hospitalized", "surgery", "broken wrist", "injury"] = true ∧
      containsAny (pyLower r.data) ["flu", "cold", "common cold"] = true)) :
    inferTag r = tag_reason r := by
  rw [inferTag, tag_reason, seriousKeywords_agree]
  by_cases hb : containsAny (pyLower r.data)
      ["bereavement", "passed away", "funeral", "death"] = true
  · simp [hb]
  · rw [Bool.not_eq_true] at hb
    by_cases hs : containsAny (pyLower r.data)
        ["hospital", "hospitalized", "surgery", "broken wrist", "injury"] = true
    · have hm : containsAny (pyLower r.data) ["flu", "cold", "common cold"] = false := by
        rcases hcm : containsAny (pyLower r.data) ["flu", "cold", "common cold"]
        · rfl
        · exact absurd ⟨hs, hcm⟩ h
      simp [hb, hs, hm]
    · rw [Bool.not_eq_true] at hs
      simp [hb, hs]

/-- C5, witness: on a pure bereavement text, which matches no injury or
illness keyword, the two taggers agree. -/
theorem C5_tag_agreement_witness :
    inferTag "My grandfather passed away" = tag_reason "My grandfather passed away" :=
  C5_tag_agreement_amended "My grandfather passed away" (by decide)

/-- C6, counterexample to the claim as stated: "2025-13-01T00:00:00Z"
conforms to the claimed character grammar (four-digit year, two-digit fields,
literal T, Z suffix), yet Decide rejects it with the invalid-deadline error,
because `datetime.fromisoformat` refuses month 13. -/
theorem C6_counterexample :
    claimGrammarOk "2025-13-01T00:00:00Z" = true ∧
    (submit_request "2025-13-01T00:00:00Z" 3 "reason" ⟨2025, 1, 1, 0, 0, 0⟩
      ⟨[], [], []⟩ []).isInvalid = true := by
  constructor
  · decide
  · decide

/-- C6, amended: Decide rejects a deadline with the `invalid_deadline_iso`
error exactly when the string — after trimming whitespace, upper-casing and
normalising a `+00:00` suffix to `Z` — does not print a calendar-valid UTC
datetime in the `YYYY-MM-DDTHH:MM:SSZ` shape; whether the request is rejected
does not depend on the evidence backends. -/
theorem C6_deadline_validation_amended (s : String) (days : ℤ) (reason : String)
    (now : DateTime) (res : QueryRes) (cnt : Counters) :
    ((∃ e, submit_request s days reason now res cnt = .invalid "invalid_deadline_iso" e) ↔
      ¬ specAcceptsDeadline s) ∧
    (∀ (days2 : ℤ) (reason2 : String) (res2 : QueryRes) (cnt2 : Counters),
      (submit_request s days reason now res cnt).isInvalid =
      (submit_request s days2 reason2 now res2 cnt2).isInvalid) := by
  cases hp : parse_iso_z s with
  | error e =>
    constructor
    · constructor
      · intro _
        rw [← parse_ok_iff_spec]
        rintro ⟨dt, hdt⟩
        rw [hp] at hdt
        exact Except.noConfusion hdt
      · intro _
        exact ⟨e, by rw [submit_request, hp]⟩
    · intro days2 reason2 res2 cnt2
      rw [submit_request, hp, submit_request, hp]
  | ok dl =>
    have hnone : ∀ (days2 : ℤ) (reason2 : String) (res2 : QueryRes) (cnt2 : Counters),
        (submit_request s days2 reason2 now res2 cnt2).isInvalid = false := by
      intro days2 reason2 res2 cnt2
      rw [submit_request, hp]
      simp only [auto_approve_beyond_48h]
      split
      · rfl
      · rfl
    constructor
    · constructor
      · intro ⟨e, he⟩
        have hfalse := hnone days reason res cnt
        rw [he] at hfalse
        exact Bool.noConfusion hfalse
      · intro hns
        exact absurd (parse_ok_iff_spec s |>.mp ⟨dl, hp⟩) hns
    · intro days2 reason2 res2 cnt2
      rw [hnone, hnone]

/-- C7: RecordReview canonicalises the outcome by lower-casing, trimming and
the synonym map approve to allow and reject to deny; a value outside
allow/deny is rejected with the 400 error before any write, leaving the
precedent collection and the counters untouched. -/
theorem C7_outcome_normalisation (d : String) (days : ℤ) (r o rev : String)
    (ts : ℤ) (id : String) (st : PrecState) :
    (canon_outcome o = "allow" →
      review_request d days r o rev ts id st =
        review_request d days r "allow" rev ts id st) ∧
    (canon_outcome o = "deny" →
      review_request d days r o rev ts id st =
        review_request d days r "deny" rev ts id st) ∧
    (canon_outcome o ≠ "allow" → canon_outcome o ≠ "deny" →
      review_request d days r o rev ts id st =
        (.err 400 "Outcome must be allow/deny", st)) := by
  refine ⟨?_, ?_, ?_⟩
  · intro hc
    rw [review_request, review_request, hc]
    have h2 : canon_outcome "allow" = "allow" := by decide
    rw [h2]
  · intro hc
    rw [review_request, review_request, hc]
    have h2 : canon_outcome "deny" = "deny" := by decide
    rw [h2]
  · intro h1 h2
    rw [review_request, if_pos ⟨h1, h2⟩]

/-- C7, witness: " Approve " canonicalises to allow and behaves exactly as
the literal outcome "allow", while "maybe" is rejected with the 400 error and
an unchanged state. -/
theorem C7_outcome_normalisation_witness :
    review_request "2025-01-01T00:00:00Z" 3 "flu" " Approve " "rev" 0 "id" ⟨[], []⟩ =
      review_request "2025-01-01T00:00:00Z" 3 "flu" "allow" "rev" 0 "id" ⟨[], []⟩ ∧
    review_request "2025-01-01T00:00:00Z" 3 "flu" "maybe" "rev" 0 "id" ⟨[], []⟩ =
      (.err 400 "Outcome must be allow/deny", (⟨[], []⟩ : PrecState)) := by
  constructor
  · exact (C7_outcome_normalisation "2025-01-01T00:00:00Z" 3 "flu" " Approve " "rev"
      0 "id" ⟨[], []⟩).1 (by decide)
  · exact (C7_outcome_normalisation "2025-01-01T00:00:00Z" 3 "flu" "maybe" "rev"
      0 "id" ⟨[], []⟩).2.2 (by decide) (by decide)

/-- C8: N sequential successful RecordReview calls with outcome allow and a
fixed non-empty tag T raise `counters[T].allow` by exactly N — one increment
of one per call, one stored case per call — and leave T's deny counter and
every other tag's row unchanged. -/
theorem C8_counter_consistency (raw T : String) (tss : ℕ → ℤ) (ids : ℕ → String)
    (hT : ¬ T = "") :
    ∀ (N : ℕ) (st : PrecState),
    allowCount (recordNAllow raw T tss ids N st).counters T =
      allowCount st.counters T + N ∧
    denyCount (recordNAllow raw T tss ids N st).counters T = denyCount st.counters T ∧
    (∀ T2, T2 ≠ T →
      getk (recordNAllow raw T tss ids N st).counters T2 = getk st.counters T2) ∧
    (recordNAllow raw T tss ids N st).cases.length = st.cases.length + N := by
  intro N
  induction N with
  | zero =>
    intro st
    simp [recordNAllow]
  | succ n ih =>
    intro st
    rw [recordNAllow]
    obtain ⟨ha, hd, ho, hl⟩ := ih (recordStep raw "allow" (some T) (tss n) (ids n) st)
    obtain ⟨hsc, hslen⟩ := recordStep_allow_state raw T hT (tss n) (ids n) st
    obtain ⟨hba, hbd⟩ := bump_allow_same st.counters T
    refine ⟨?_, ?_, ?_, ?_⟩
    · rw [ha, hsc, hba]
      push_cast
      ring
    · rw [hd, hsc, hbd]
    · intro T2 h2
      rw [ho T2 h2, hsc, bump_other_tag _ h2]
    · rw [hl, hslen]
      omega

/-- C8, witness: three recorded allow reviews on the bereavement tag starting
from the empty state raise its allow counter by exactly three. -/
theorem C8_counter_consistency_witness :
    allowCount (recordNAllow "grandmother passed away" "bereavement"
      (fun _ => 0) (fun _ => "id") 3 ⟨[], []⟩).counters "bereavement" =
      allowCount ([] : Counters) "bereavement" + 3 ∧
    denyCount (recordNAllow "grandmother passed away" "bereavement"
      (fun _ => 0) (fun _ => "id") 3 ⟨[], []⟩).counters "bereavement" =
      denyCount ([] : Counters) "bereavement" := by
  have h := C8_counter_consistency "grandmother passed away" "bereavement"
    (fun _ => 0) (fun _ => "id") (by decide) 3 ⟨[], []⟩
  exact ⟨h.1, h.2.1⟩

/-- C9: when the policy collection, the precedent collection and the counter
store are all empty, a request on the evidence path is answered by the
`policy_lookup` payload with decision needs_review, confidence 0, an empty
evidence list, and all-zero precedent statistics. -/
theorem C9_empty_evidence (s : String) (dl now : DateTime) (days : ℤ)
    (reason : String)
    (hp : parse_iso_z s = .ok dl) (hh : hours_to_deadline dl now ≤ 48) :
    submit_request s days reason now ⟨[], [], []⟩ [] =
      .rag (policy_lookup reason ⟨[], [], []⟩ []) (deadline_meta_of dl now) ∧
    (policy_lookup reason ⟨[], [], []⟩ []).decision = "needs_review" ∧
    (policy_lookup reason ⟨[], [], []⟩ []).confidence = 0 ∧
    (policy_lookup reason ⟨[], [], []⟩ []).recommend = none ∧
    (policy_lookup reason ⟨[], [], []⟩ []).evidence = [] ∧
    (policy_lookup reason ⟨[], [], []⟩ []).precedent.stats = [] ∧
    rowGet (policy_lookup reason ⟨[], [], []⟩ []).precedent.stats "allow" = 0 ∧
    rowGet (policy_lookup reason ⟨[], [], []⟩ []).precedent.stats "deny" = 0 ∧
    (policy_lookup reason ⟨[], [], []⟩ []).precedent.allow_rate = 0 := by
  refine ⟨submit_rag_eq days reason ⟨[], [], []⟩ [] hp hh, ?_⟩
  have hconf := round3_zero
  simp only [policy_lookup, toPolicyHits, zip3, List.map_nil, sortHits,
    strong_cue_decision, strongDenyFlag, strongAllowFlag, List.any_nil,
    Bool.false_and, Bool.if_false_left, Bool.and_false,
    allowScore, denyScore, polAllowScore, polDenyScore, preAllowScore,
    preDenyScore, precedent_query, MIN_CONF, PRECEDENT_WEIGHT,
    load_precedent_stats, getk, rowGet, List.filter_nil, List.sum_nil]
  norm_num [hconf]

/-- C9, witness: a concrete request exactly at its deadline (0 hours left)
with empty backends takes the evidence path and receives the zero-confidence
needs_review payload. -/
theorem C9_empty_evidence_witness :
    submit_request "2025-01-01T00:00:00Z" 2 "overslept" ⟨2025, 1, 1, 0, 0, 0⟩
      ⟨[], [], []⟩ [] =
      .rag (policy_lookup "overslept" ⟨[], [], []⟩ [])
        (deadline_meta_of ⟨2025, 1, 1, 0, 0, 0⟩ ⟨2025, 1, 1, 0, 0, 0⟩) ∧
    (policy_lookup "overslept" ⟨[], [], []⟩ []).decision = "needs_review" ∧
    (policy_lookup "overslept" ⟨[], [], []⟩ []).confidence = 0 ∧
    (policy_lookup "overslept" ⟨[], [], []⟩ []).evidence = [] ∧
    (policy_lookup "overslept" ⟨[], [], []⟩ []).precedent.stats = [] := by
  have h := C9_empty_evidence "2025-01-01T00:00:00Z" ⟨2025, 1, 1, 0, 0, 0⟩
    ⟨2025, 1, 1, 0, 0, 0⟩ 2 "overslept" (by decide)
    ((hours_le_iff _ _).mpr (by decide))
  exact ⟨h.1, h.2.1, h.2.2.1, h.2.2.2.2.1, h.2.2.2.2.2.1⟩

/-- C10: given a backend response of at most k rows, the evidence retriever
returns at most k hits, each hit carries similarity `max 0 (min 1 (1 - d))`
for its row's distance d — hence similarity lies in `[0, 1]` — and the hit
list is ordered by descending similarity. -/
theorem C10_retriever (res : QueryRes) (k : ℕ) (hk : res.dists.length ≤ k) :
    (toPolicyHits res).length ≤ k ∧
    (∀ h ∈ toPolicyHits res, (∃ d ∈ res.dists, h.similarity = simOfDist d) ∧
      0 ≤ h.similarity ∧ h.similarity ≤ 1) ∧
    (toPolicyHits res).Sorted (fun a b => b.similarity ≤ a.similarity) := by
  refine ⟨?_, ?_, ?_⟩
  · rw [toPolicyHits, length_sortHits, List.length_map]
    exact le_trans (length_zip3 _ _ _) hk
  · intro h hmem
    exact ⟨mem_toPolicyHits hmem, toPolicyHits_sim_nonneg hmem,
      toPolicyHits_sim_le_one hmem⟩
  · rw [toPolicyHits]
    exact sorted_sortHits _

/-- C10, witness: a two-row backend response under k = 5 yields at most five
hits, sorted by descending similarity. -/
theorem C10_retriever_witness :
    (toPolicyHits ⟨[some "clause a", some "clause b"],
      [some ⟨some "allow", none⟩, none], [3 / 10, 1 / 10]⟩).length ≤ 5 ∧
    (toPolicyHits ⟨[some "clause a", some "clause b"],
      [some ⟨some "allow", none⟩, none], [3 / 10, 1 / 10]⟩).Sorted
      (fun a b => b.similarity ≤ a.similarity) := by
  have h := C10_retriever ⟨[some "clause a", some "clause b"],
    [some ⟨some "allow", none⟩, none], [3 / 10, 1 / 10]⟩ 5 (by decide)
  exact ⟨h.1, h.2.2⟩

end EzExtender
